import Mathlib

/-!
Verification of the clip-dr AI engine core: a shallow embedding of the
job scheduler, the VRAM-budgeted model manager and the TTL cache found in
`ai-engine/src` and `_shared/ai-engine/src`, together with theorems about
the lifecycle and budget properties of the embedded operations.

Python dictionaries are embedded as association lists over `String` keys
(first match wins, as a dict has at most one entry per key); Python's
arbitrary-precision non-negative integers (sizes, byte counts, millisecond
timestamps) are embedded as `Nat`.
-/

set_option autoImplicit false

namespace ClipDr

/-- First-match lookup in an association list (embedding of `dict[k]` /
`dict.get(k)`). -/
def alookup {α : Type} (k : String) : List (String × α) → Option α
  | [] => none
  | (k', v) :: rest => if k' = k then some v else alookup k rest

/-- Set a key in an association list, replacing the first binding when the
key is present and appending otherwise (embedding of `dict[k] = v`). -/
def aset {α : Type} (k : String) (v : α) : List (String × α) → List (String × α)
  | [] => [(k, v)]
  | (k', v') :: rest => if k' = k then (k, v) :: rest else (k', v') :: aset k v rest

/-- Remove the first binding of a key (embedding of `del dict[k]` /
unlinking the single cache file of a key). -/
def aerase {α : Type} (k : String) : List (String × α) → List (String × α)
  | [] => []
  | (k', v') :: rest => if k' = k then rest else (k', v') :: aerase k rest

/-- A value embedded in a JSON-ish payload: enough structure for the
config dictionaries and results this development manipulates. -/
inductive JVal : Type
  | s (v : String)
  | n (v : Nat)
  | l (vs : List String)
  deriving DecidableEq

/-- A Python dict of JSON-ish values. -/
abbrev Dict : Type := List (String × JVal)

/-- Embedding of `base.update(opts)`: every binding of `opts` is written
into `base` in order, overwriting existing keys. -/
def dictUpdate (base opts : Dict) : Dict :=
  opts.foldl (fun acc p => aset p.1 p.2 acc) base

/-!
## Cache (`ai-engine/src/cache.py`)

The disk store is embedded as an association list from cache key to entry:
`_key_to_path` maps a key to a single file via a SHA-256 digest, so one key
owns one storage slot. Time is embedded as integer milliseconds since the
epoch (`time.time() * 1000`); `set` receives the current instant in
milliseconds and a TTL in seconds, mirroring
`expires_at = int((time.time() + effective_ttl) * 1000)`.
Disk I/O is assumed to succeed: the `OSError`/`JSONDecodeError` branches of
the source only log and drop, and no claim concerns a corrupted store.
-/

/-- One cache file's JSON payload (`cache.py`, `Cache.set`): the key, the
value, the creation instant and the optional absolute expiry instant, both
in milliseconds. -/
structure CacheEntry where
  key : String
  value : JVal
  createdAt : Nat
  expiresAt : Option Nat
  deriving DecidableEq

/-- Cache state: the stored entries keyed by cache key, and the
constructor's `default_ttl` (seconds, `none` = no expiry). -/
structure CacheState where
  store : List (String × CacheEntry)
  default_ttl : Option Nat
  deriving DecidableEq

/-- Embedding of `if expires_at and time.time() * 1000 > expires_at`:
a missing expiry never expires, and the Python truthiness test also treats
a stored expiry of `0` as "no expiry". -/
def expiredAt (expiresAt : Option Nat) (nowMs : Nat) : Bool :=
  match expiresAt with
  | none => false
  | some e => decide (e ≠ 0) && decide (nowMs > e)

namespace Cache

/-- `Cache.get` (`cache.py` lines 49-76): absent key → `None`; an expired
entry is physically unlinked on read and reported absent; otherwise the
entry is returned. Also returns the store after the read (the lazy
removal side effect). -/
def get (c : CacheState) (key : String) (nowMs : Nat) :
    CacheState × Option CacheEntry :=
  match alookup key c.store with
  | none => (c, none)
  | some entry =>
    if expiredAt entry.expiresAt nowMs then
      ({ c with store := aerase key c.store }, none)
    else
      (c, some entry)

/-- `Cache.set` (`cache.py` lines 78-105): effective TTL is the argument
when not `None`, else `default_ttl`; a falsy effective TTL (`None` or `0`)
means no expiry; otherwise the absolute expiry is `(now + ttl) * 1000` ms. -/
def set (c : CacheState) (key : String) (value : JVal) (ttl : Option Nat)
    (nowMs : Nat) : CacheState :=
  let effective_ttl := match ttl with
    | some t => some t
    | none => c.default_ttl
  let expires_at : Option Nat := match effective_ttl with
    | some t => if t = 0 then none else some (nowMs + 1000 * t)
    | none => none
  { c with store := aset key ⟨key, value, nowMs, expires_at⟩ c.store }

/-- `Cache.delete` (`cache.py` lines 107-119): unlink the entry's file if
it exists; the returned Boolean reports whether it existed. -/
def delete (c : CacheState) (key : String) : CacheState × Bool :=
  match alookup key c.store with
  | some _ => ({ c with store := aerase key c.store }, true)
  | none => (c, false)

/-- `Cache.prune` (`cache.py` lines 153-180): every stored entry whose
expiry has passed is unlinked; returns the new state and the count
removed. -/
def prune (c : CacheState) (nowMs : Nat) : CacheState × Nat :=
  let expired := c.store.filter (fun p => expiredAt p.2.expiresAt nowMs)
  ({ c with store := c.store.filter (fun p => !expiredAt p.2.expiresAt nowMs) },
   expired.length)

end Cache

/-- `EngineServer._handle_cache_delete` (`server.py` lines 364-367): calls
`Cache.delete` but discards its Boolean and always answers
`success = True`. The reply is the Boolean `success` field of the JSON
response. -/
def handleCacheDelete (c : CacheState) (key : String) : CacheState × Bool :=
  let r := Cache.delete c key
  (r.1, true)

/-!
## Model manager (`_shared/ai-engine/src/model_manager.py`)

This is the budget-tracking variant of the manager (the `ai-engine` copy is
identical except that it has no VRAM accounting). The opaque loaded
instance (`model.instance`) is not represented: the embedding keeps the
`loaded` flag, which the source sets in lockstep with the instance. The
concrete load side effect `_load_model_instance` performs network/library
I/O, so each embedded `load_model` call takes a Boolean oracle `loadOk`
saying whether that side effect returns normally or raises; `time.time()`
is likewise passed in as an explicit timestamp.

`DEFAULT_MODELS` is a module-level dict whose per-model `config` dict is
handed out by reference (`config.get("config", {})`) and mutated in place
by `model_config.update(options)`; the embedding therefore carries the
catalog inside the manager state so this aliasing is visible.
-/

/-- `ModelInfo` (`model_manager.py` lines 40-52), minus the opaque
`instance` handle. -/
structure ModelInfo where
  id : String
  name : String
  mtype : String
  size : Nat
  loaded : Bool := false
  memory_usage : Nat := 0
  last_used : Nat := 0
  load_options : Dict := []
  deriving DecidableEq

/-- One entry of `DEFAULT_MODELS` (`model_manager.py` lines 56-121);
`config` is `none` for entries without a `"config"` key. -/
structure CatalogEntry where
  name : String
  mtype : String
  size : Nat
  loader : String
  config : Option Dict := none
  deriving DecidableEq

/-- `DEFAULT_MODELS` (`model_manager.py` lines 56-121). -/
def DEFAULT_MODELS : List (String × CatalogEntry) :=
  [("easyocr-en",
    { name := "EasyOCR English", mtype := "ocr", size := 100000000,
      loader := "easyocr", config := some [("lang_list", JVal.l ["en"])] }),
   ("easyocr-multilingual",
    { name := "EasyOCR Multilingual", mtype := "ocr", size := 200000000,
      loader := "easyocr",
      config := some [("lang_list", JVal.l ["en", "es", "fr", "de", "it", "pt"])] }),
   ("sentence-transformers/all-MiniLM-L6-v2",
    { name := "MiniLM-L6 Embeddings", mtype := "embeddings", size := 90000000,
      loader := "sentence_transformers" }),
   ("sentence-transformers/all-mpnet-base-v2",
    { name := "MPNet Base Embeddings", mtype := "embeddings", size := 420000000,
      loader := "sentence_transformers" }),
   ("nsfw-classifier",
    { name := "NSFW Image Classifier", mtype := "nsfw", size := 150000000,
      loader := "nsfw" }),
   ("whisper-tiny",
    { name := "Whisper Tiny", mtype := "whisper", size := 75000000,
      loader := "whisper", config := some [("model_size", JVal.s "tiny")] }),
   ("whisper-base",
    { name := "Whisper Base", mtype := "whisper", size := 150000000,
      loader := "whisper", config := some [("model_size", JVal.s "base")] }),
   ("whisper-small",
    { name := "Whisper Small", mtype := "whisper", size := 500000000,
      loader := "whisper", config := some [("model_size", JVal.s "small")] }),
   ("whisper-medium",
    { name := "Whisper Medium", mtype := "whisper", size := 1500000000,
      loader := "whisper", config := some [("model_size", JVal.s "medium")] })]

/-- `MODEL_VRAM_ESTIMATES` (`model_manager.py` lines 27-37). -/
def MODEL_VRAM_ESTIMATES : List (String × Nat) :=
  [("easyocr-en", 500000000),
   ("easyocr-multilingual", 800000000),
   ("sentence-transformers/all-MiniLM-L6-v2", 300000000),
   ("sentence-transformers/all-mpnet-base-v2", 500000000),
   ("nsfw-classifier", 400000000),
   ("whisper-tiny", 150000000),
   ("whisper-base", 300000000),
   ("whisper-small", 1000000000),
   ("whisper-medium", 3000000000)]

/-- `MAX_GPU_VRAM_BYTES` (`model_manager.py` line 23): 6 GiB. -/
def MAX_GPU_VRAM_BYTES : Nat := 6 * 1024 * 1024 * 1024

/-- `ModelManager` state: the model registry, the (alias-mutable) default
catalog, and the VRAM budget counter pair. -/
structure MMState where
  models : List (String × ModelInfo)
  catalog : List (String × CatalogEntry)
  max_vram : Nat
  current_vram_usage : Nat
  deriving DecidableEq

namespace ModelManager

/-- `_register_default_models` (`model_manager.py` lines 158-166). -/
def registerDefaults (catalog : List (String × CatalogEntry)) :
    List (String × ModelInfo) :=
  catalog.map (fun p =>
    (p.1, { id := p.1, name := p.2.name, mtype := p.2.mtype, size := p.2.size }))

/-- `ModelManager.__init__` (`model_manager.py` lines 131-156): zero usage,
the given budget, the default registry. -/
def fresh (maxVram : Nat) : MMState :=
  { models := registerDefaults DEFAULT_MODELS,
    catalog := DEFAULT_MODELS,
    max_vram := maxVram,
    current_vram_usage := 0 }

/-- `_estimate_vram_usage` (`model_manager.py` lines 193-195):
table lookup with a 500 MB default. -/
def estimateVram (model_id : String) : Nat :=
  (alookup model_id MODEL_VRAM_ESTIMATES).getD 500000000

/-- `ModelManager.load_model` (`model_manager.py` lines 213-272).
`options` is the caller's dict (`none` = Python `None`); `loadOk` tells
whether `_load_model_instance` returns normally; `t` is `time.time()`.
Mirrors the source order: unknown-id check, already-loaded check,
`_check_vram_budget`, then the `try` block, whose
`model_config.update(options)` writes through to the shared catalog
`config` dict before `_load_model_instance` may raise. -/
def load_model (s : MMState) (model_id : String) (options : Option Dict)
    (loadOk : Bool) (t : Nat) : MMState × Bool :=
  match alookup model_id s.models with
  | none => (s, false)
  | some m =>
    if m.loaded then (s, true)
    else if s.max_vram < s.current_vram_usage + estimateVram model_id then
      -- `_check_vram_budget` failed: refuse before any side effect
      (s, false)
    else
      let centry := alookup model_id s.catalog
      let baseConfig : Dict := match centry with
        | some e => e.config.getD []
        | none => []
      let opts : Dict := options.getD []
      -- `if options:` — both `None` and `{}` are falsy
      let model_config := if opts.isEmpty then baseConfig
        else dictUpdate baseConfig opts
      -- in-place `dict.update`: when the catalog entry owns a `config`
      -- dict and options are non-empty, the shared catalog is mutated too
      let catalog' := match centry with
        | some e =>
          match e.config with
          | some _ =>
            if opts.isEmpty then s.catalog
            else aset model_id { e with config := some model_config } s.catalog
          | none => s.catalog
        | none => s.catalog
      if loadOk then
        let estimated_vram := estimateVram model_id
        let m' := { m with loaded := true,
                           last_used := t,
                           load_options := model_config,
                           memory_usage := estimated_vram }
        ({ s with models := aset model_id m' s.models,
                  catalog := catalog',
                  current_vram_usage := s.current_vram_usage + estimated_vram },
         true)
      else
        -- `_load_model_instance` raised: the `except` clause returns False;
        -- the model record and the counter were never touched
        ({ s with catalog := catalog' }, false)

/-- `ModelManager.unload_model` (`model_manager.py` lines 316-368).
The body of its `try` (clearing fields, `gc.collect()`) cannot raise, so
the embedded call always succeeds past the two early returns.
`max(0, current - freed)` is `Nat` truncated subtraction. -/
def unload_model (s : MMState) (model_id : String) : MMState × Bool :=
  match alookup model_id s.models with
  | none => (s, false)
  | some m =>
    if !m.loaded then (s, true)
    else
      let freed_vram := m.memory_usage
      let m' := { m with loaded := false, memory_usage := 0 }
      ({ s with models := aset model_id m' s.models,
                current_vram_usage := s.current_vram_usage - freed_vram },
       true)

/-- One call of the claim-C1 call shapes: a `load_model` (with its oracle
and timestamp) or an `unload_model`. -/
inductive MMOp : Type
  | load (model_id : String) (options : Option Dict) (loadOk : Bool) (t : Nat)
  | unload (model_id : String)

/-- Apply one call, keeping only the state. -/
def applyMMOp (s : MMState) : MMOp → MMState
  | .load model_id options loadOk t => (load_model s model_id options loadOk t).1
  | .unload model_id => (unload_model s model_id).1

/-- Apply a sequence of calls in order. -/
def applyMMOps (s : MMState) : List MMOp → MMState
  | [] => s
  | op :: rest => applyMMOps (applyMMOp s op) rest

/-- The capacity cost a model record currently charges: its
`memory_usage` while loaded, nothing otherwise. -/
def contribution (m : ModelInfo) : Nat :=
  if m.loaded then m.memory_usage else 0

/-- Sum of the capacity costs of the currently loaded models. -/
def loadedSum (models : List (String × ModelInfo)) : Nat :=
  (models.map (fun p => contribution p.2)).sum

/-- The budget bookkeeping invariant: the counter equals the sum of the
costs charged by loaded models, and stays within the configured budget. -/
def VramInv (s : MMState) : Prop :=
  s.current_vram_usage = loadedSum s.models ∧
  s.current_vram_usage ≤ s.max_vram

end ModelManager

/-- The registered (never yet loaded) record of `whisper-tiny`, used to
instantiate the model-manager theorems. -/
def whisperTinyInfo : ModelInfo :=
  { id := "whisper-tiny", name := "Whisper Tiny", mtype := "whisper",
    size := 75000000 }

/-- A manager with a 600 MB budget that has successfully loaded
`easyocr-en` (estimated 500 MB): loading `whisper-tiny` (estimated 150 MB)
on top of it would overflow the budget. -/
def sampleMM : MMState :=
  (ModelManager.load_model (ModelManager.fresh 600000000) "easyocr-en" none true 0).1

/-- `sampleMM` after unloading `easyocr-en` again, freeing its 500 MB. -/
def sampleMMFreed : MMState :=
  ModelManager.applyMMOps sampleMM (["easyocr-en"].map ModelManager.MMOp.unload)

/-!
## Job scheduler (`ai-engine/src/server.py`, `ai-engine/src/job_registry.py`)

The job table and the registry are embedded as an explicit state; each
request handler and each phase of `_run_job` becomes one atomic state
transformer — the source serializes all job-table accesses under
`self.lock`, so an interleaved execution is a sequence of these atomic
steps. `uuid.uuid4()` and `time.time()` appear as explicit parameters.

`_run_job` is split into its lock-protected phases: `runBegin` (the entry
that marks the job `running`), zero or more `progress` callbacks, and
`runEnd` (the terminal transition, `done` on handler return or `failed` on
a raised exception, as dispatched by the `try`/`except`). Each definition
mirrors exactly what the corresponding source lines do to the job table;
the facts the runtime guarantees about *when* the executor invokes these
phases (a generated uuid is fresh; a submitted future runs at most once
and not after a successful `future.cancel()`; `runEnd` is the tail of the
same `_run_job` call that performed `runBegin`, and no other operation can
leave the `running` state in between) are stated separately as the
well-formedness predicate `wfOp` on operations, not baked into the
transformers.
-/

/-- Job lifecycle states (`server.py` `Job.state` string values). -/
inductive JobState : Type
  | pending
  | running
  | done
  | failed
  | cancelled
  deriving DecidableEq, Fintype

/-- The state strings used in replies (`job.state` interpolations). -/
def JobState.toStr : JobState → String
  | .pending => "pending"
  | .running => "running"
  | .done => "done"
  | .failed => "failed"
  | .cancelled => "cancelled"

/-- `job.state in ("done", "failed", "cancelled")`. -/
def JobState.isTerminal : JobState → Bool
  | .done => true
  | .failed => true
  | .cancelled => true
  | _ => false

/-- `Job` (`server.py` lines 26-39). `progress` is a caller-supplied
percentage relayed unvalidated; its numeric type plays no role here, so it
is embedded as `Nat`. -/
structure Job where
  id : String
  jtype : String
  state : JobState := .pending
  progress : Nat := 0
  message : String := ""
  result : Option JVal := none
  error : Option String := none
  created_at : Nat
  started_at : Option Nat := none
  completed_at : Option Nat := none
  deriving DecidableEq

/-- What a handler invocation does: return a result or raise an error
whose `str(e)` is the given text. -/
inductive HOutcome : Type
  | ok (v : JVal)
  | err (msg : String)
  deriving DecidableEq

/-- Server state: the registered job types (`JobRegistry._handlers` keys —
only membership matters to the dispatcher) and the job table
(`EngineServer.jobs`). -/
structure SrvState where
  registry : List String
  jobs : List (String × Job)
  deriving DecidableEq

namespace Scheduler

/-- `JobRegistry.has_handler` (`job_registry.py` lines 58-60). -/
def has_handler (s : SrvState) (job_type : String) : Bool :=
  s.registry.contains job_type

/-- `EngineServer._handle_jobs_start` (`server.py` lines 189-210): generate
an id (`jid` parameter), fail with `ValueError("Unknown job type: ...")`
when no handler is registered, otherwise insert a `pending` job and submit
the future. Returns the new state and either the error message or the
started job id. -/
def jobs_start (s : SrvState) (jid job_type : String) (t : Nat) :
    SrvState × Except String String :=
  if !has_handler s job_type then
    (s, .error ("Unknown job type: " ++ job_type))
  else
    let job : Job := { id := jid, jtype := job_type, created_at := t }
    ({ s with jobs := aset jid job s.jobs }, .ok jid)

/-- First phase of `EngineServer._run_job` (`server.py` lines 214-219):
under the lock, mark the job `running` and stamp `started_at`; vanish
silently if the id is unknown. -/
def run_begin (s : SrvState) (jid : String) (t : Nat) : SrvState :=
  match alookup jid s.jobs with
  | none => s
  | some j =>
    { s with jobs := aset jid { j with state := .running, started_at := some t } s.jobs }

/-- The `on_progress` callback of `_run_job` (`server.py` lines 222-233):
store the relayed percent and message if the job exists (the emitted
progress event does not touch the job table). -/
def on_progress (s : SrvState) (jid : String) (percent : Nat) (message : String) :
    SrvState :=
  match alookup jid s.jobs with
  | none => s
  | some j =>
    { s with jobs := aset jid { j with progress := percent, message := message } s.jobs }

/-- Final phase of `EngineServer._run_job` (`server.py` lines 235-272):
on handler return, mark `done` with the result; on a raised exception,
mark `failed` with `str(e)`; stamp `completed_at` either way. -/
def run_end (s : SrvState) (jid : String) (outcome : HOutcome) (t : Nat) :
    SrvState :=
  match alookup jid s.jobs with
  | none => s
  | some j =>
    match outcome with
    | .ok v =>
      let j' := { j with state := JobState.done, result := some v, completed_at := some t }
      { s with jobs := aset jid j' s.jobs }
    | .err msg =>
      let j' := { j with state := JobState.failed, error := some msg, completed_at := some t }
      { s with jobs := aset jid j' s.jobs }

/-- Reply of `jobs.status` (`server.py` lines 282-293). -/
structure StatusReply where
  state : JobState
  progress : Nat
  message : Option String
  startedAt : Option Nat
  completedAt : Option Nat
  deriving DecidableEq

/-- `EngineServer._handle_jobs_status` (`server.py` lines 274-293): raises
`ValueError` for an unknown id, otherwise reports the current state.
Optional fields follow the source's truthiness guards. Read-only. -/
def jobs_status (s : SrvState) (jid : String) : Except String StatusReply :=
  match alookup jid s.jobs with
  | none => .error ("Job not found: " ++ jid)
  | some j =>
    .ok { state := j.state,
          progress := j.progress,
          message := if j.message = "" then none else some j.message,
          startedAt := j.started_at,
          completedAt := j.completed_at }

/-- Reply of `jobs.result` (`server.py` lines 303-308). -/
structure ResultReply where
  success : Bool
  data : Option JVal
  error : Option String
  deriving DecidableEq

/-- `EngineServer._handle_jobs_result` (`server.py` lines 295-308):
`done` → success with the payload; `failed` → non-success with the captured
error; anything else → non-success with "Job not complete: {state}".
Read-only; unknown ids raise `ValueError`. -/
def jobs_result (s : SrvState) (jid : String) : Except String ResultReply :=
  match alookup jid s.jobs with
  | none => .error ("Job not found: " ++ jid)
  | some j =>
    if j.state = .done then
      .ok { success := true, data := j.result, error := none }
    else if j.state = .failed then
      .ok { success := false, data := none, error := j.error }
    else
      .ok { success := false, data := none,
            error := some ("Job not complete: " ++ j.state.toStr) }

/-- Reply of `jobs.cancel` (`server.py` lines 320-331): the `success` flag
and the optional `reason` string. -/
structure CancelReply where
  success : Bool
  reason : Option String
  deriving DecidableEq

/-- `EngineServer._handle_jobs_cancel` (`server.py` lines 310-331):
unknown → `ValueError`; terminal → non-success, table untouched; else try
`future.cancel()`, which succeeds exactly when the future has not started
executing — in this embedding, exactly when the job is still `pending`
(`_run_job`'s first action is to leave `pending`). On success the job
becomes `cancelled` with `completed_at` stamped; a `running` job cannot be
interrupted. -/
def jobs_cancel (s : SrvState) (jid : String) (t : Nat) :
    SrvState × Except String CancelReply :=
  match alookup jid s.jobs with
  | none => (s, .error ("Job not found: " ++ jid))
  | some j =>
    if j.state.isTerminal then
      (s, .ok { success := false, reason := some ("Job already " ++ j.state.toStr) })
    else if j.state = .pending then
      let j' := { j with state := JobState.cancelled, completed_at := some t }
      ({ s with jobs := aset jid j' s.jobs },
       .ok { success := true, reason := none })
    else
      (s, .ok { success := false, reason := some "Job is already running" })

/-- One atomic operation on the job table: a request handler touching the
table, or one lock-protected phase of `_run_job`. Status/result/list
requests are read-only and leave the state unchanged. -/
inductive SrvOp : Type
  | start (jid job_type : String) (t : Nat)
  | runBegin (jid : String) (t : Nat)
  | progress (jid : String) (percent : Nat) (message : String)
  | runEnd (jid : String) (outcome : HOutcome) (t : Nat)
  | cancel (jid : String) (t : Nat)
  | statusQ (jid : String)
  | resultQ (jid : String)

/-- State effect of one operation. -/
def applyOp (s : SrvState) : SrvOp → SrvState
  | .start jid job_type t => (jobs_start s jid job_type t).1
  | .runBegin jid t => run_begin s jid t
  | .progress jid percent message => on_progress s jid percent message
  | .runEnd jid outcome t => run_end s jid outcome t
  | .cancel jid t => (jobs_cancel s jid t).1
  | .statusQ _ => s
  | .resultQ _ => s

/-- Apply a sequence of operations in order. -/
def applyOps (s : SrvState) : List SrvOp → SrvState
  | [] => s
  | op :: rest => applyOps (applyOp s op) rest

/-- The state of a job as seen in the table (`none` = no record). -/
def stateOf (s : SrvState) (jid : String) : Option JobState :=
  (alookup jid s.jobs).map Job.state

/-- Runtime facts about when the process can actually issue an operation,
stated once instead of being baked into the transformers:
* `start` ids come from `uuid.uuid4()`, which never collides with an
  existing job id;
* the executor invokes `_run_job` at most once per submitted future and
  never for a future whose `future.cancel()` succeeded, so `runBegin` only
  happens while the job is still `pending`;
* `runEnd` is the tail of the very `_run_job` call that moved the job to
  `running`, and no request can leave `running` (cancel of a running job
  fails), so `runEnd` only happens while the job is `running`.
Everything else can be issued at any time. -/
def wfOp (s : SrvState) : SrvOp → Bool
  | .start jid _ _ => (alookup jid s.jobs).isNone
  | .runBegin jid _ => decide (stateOf s jid = some .pending)
  | .runEnd jid _ _ => decide (stateOf s jid = some .running)
  | _ => true

/-- A trace every step of which the runtime can actually issue. -/
def wfTrace (s : SrvState) : List SrvOp → Bool
  | [] => true
  | op :: rest => wfOp s op && wfTrace (applyOp s op) rest

/-- Number of steps of a trace that move a given job from `pending` to
`running`. -/
def enterRunningCount (s : SrvState) (jid : String) : List SrvOp → Nat
  | [] => 0
  | op :: rest =>
    (if stateOf s jid = some .pending ∧
        stateOf (applyOp s op) jid = some .running then 1 else 0)
      + enterRunningCount (applyOp s op) jid rest

/-- Whether an optional state is terminal. -/
def isTerminalO : Option JobState → Bool
  | some st => st.isTerminal
  | none => false

/-- Number of steps of a trace that move a given job into a terminal
state from a non-terminal situation. -/
def enterTerminalCount (s : SrvState) (jid : String) : List SrvOp → Nat
  | [] => 0
  | op :: rest =>
    (if isTerminalO (stateOf s jid) = false ∧
        isTerminalO (stateOf (applyOp s op) jid) = true then 1 else 0)
      + enterTerminalCount (applyOp s op) jid rest

/-- The state a `jobs.status` reply reports, if the query succeeds. -/
def statusState (s : SrvState) (jid : String) : Option JobState :=
  match jobs_status s jid with
  | .ok r => some r.state
  | .error _ => none

/-- The transitions a single operation may perform on one job's observable
state: stutter, record creation, `pending→running`, `running→done`,
`running→failed`, or `pending→cancelled`. -/
def okStep (a b : Option JobState) : Bool :=
  decide (b = a) ||
  (decide (a = none) && decide (b = some JobState.pending)) ||
  (decide (a = some JobState.pending) && decide (b = some JobState.running)) ||
  (decide (a = some JobState.running) && decide (b = some JobState.done)) ||
  (decide (a = some JobState.running) && decide (b = some JobState.failed)) ||
  (decide (a = some JobState.pending) && decide (b = some JobState.cancelled))

/-- Position of a job state along the lifecycle: absent before pending
before running before terminal. -/
def rank : Option JobState → Nat
  | none => 0
  | some .pending => 1
  | some .running => 2
  | some .done => 3
  | some .failed => 3
  | some .cancelled => 3

end Scheduler

/-- Sample jobs, one in each interesting lifecycle state, used to
instantiate the scheduler theorems on concrete inputs. -/
def samplePending : Job := { id := "p", jtype := "t", created_at := 0 }

def sampleRunning : Job :=
  { id := "c", jtype := "t", state := .running, created_at := 0, started_at := some 1 }

def sampleDone : Job :=
  { id := "a", jtype := "t", state := .done, result := some (JVal.n 7),
    created_at := 0, started_at := some 1, completed_at := some 2 }

def sampleFailed : Job :=
  { id := "b", jtype := "t", state := .failed, error := some "boom",
    created_at := 0, started_at := some 1, completed_at := some 2 }

/-- A sample server state holding the four sample jobs. -/
def sampleSrv : SrvState :=
  ⟨["t"], [("p", samplePending), ("c", sampleRunning),
           ("a", sampleDone), ("b", sampleFailed)]⟩

/-!
## Association list lemmas
-/

theorem alookup_aset {α : Type} (k k' : String) (v : α) (l : List (String × α)) :
    alookup k (aset k' v l) = if k' = k then some v else alookup k l := by
  induction l with
  | nil => by_cases h : k' = k <;> simp [aset, alookup, h]
  | cons p rest ih =>
    obtain ⟨k'', v''⟩ := p
    by_cases h1 : k'' = k'
    · subst h1
      by_cases h2 : k'' = k <;> simp [aset, alookup, h2]
    · by_cases h2 : k'' = k
      · subst h2
        have h3 : k' ≠ k'' := fun h => h1 h.symm
        simp [aset, alookup, h1, h3]
      · simp [aset, alookup, h1, h2, ih]

theorem alookup_aset_self {α : Type} (k : String) (v : α) (l : List (String × α)) :
    alookup k (aset k v l) = some v := by
  simp [alookup_aset]

theorem alookup_aset_ne {α : Type} {k k' : String} (v : α) (l : List (String × α))
    (h : k' ≠ k) : alookup k (aset k' v l) = alookup k l := by
  simp [alookup_aset, h]

theorem keys_aset {α : Type} (k : String) (v : α) (l : List (String × α)) :
    (aset k v l).map Prod.fst =
      if k ∈ l.map Prod.fst then l.map Prod.fst else l.map Prod.fst ++ [k] := by
  induction l with
  | nil => simp [aset]
  | cons p rest ih =>
    obtain ⟨k', v'⟩ := p
    by_cases hk : k' = k
    · subst hk
      simp [aset]
    · have hk' : k ≠ k' := fun h => hk h.symm
      by_cases hmem : k ∈ rest.map Prod.fst <;>
        simp [aset, hk, hk', hmem, ih]

theorem keys_nodup_aset {α : Type} (k : String) (v : α) (l : List (String × α))
    (h : (l.map Prod.fst).Nodup) : ((aset k v l).map Prod.fst).Nodup := by
  rw [keys_aset]
  by_cases hmem : k ∈ l.map Prod.fst
  · simpa [hmem]
  · simp only [hmem, if_false]
    refine List.Nodup.append h (List.nodup_singleton k) ?_
    intro a ha hb
    simp only [List.mem_singleton] at hb
    subst hb
    exact hmem ha

theorem mem_aset_eq {α : Type} {k : String} {v : α} {l : List (String × α)}
    (h : (l.map Prod.fst).Nodup) : ∀ {e : α}, (k, e) ∈ aset k v l → e = v := by
  induction l with
  | nil =>
    intro e he
    simp [aset] at he
    exact he
  | cons p rest ih =>
    obtain ⟨k', v'⟩ := p
    intro e he
    simp only [List.map_cons, List.nodup_cons] at h
    by_cases hk : k' = k
    · subst hk
      simp only [aset, if_pos rfl, if_true, List.mem_cons] at he
      rcases he with he | he
      · simpa using he
      · exact absurd (List.mem_map_of_mem Prod.fst he) h.1
    · simp only [aset, if_neg hk, List.mem_cons] at he
      rcases he with he | he
      · have hk2 : k = k' := congrArg Prod.fst he
        exact absurd hk2.symm hk
      · exact ih h.2 he

theorem alookup_filter_none {α : Type} (q : String × α → Bool) (k : String)
    (l : List (String × α)) (h : ∀ e : α, (k, e) ∈ l → q (k, e) = false) :
    alookup k (l.filter q) = none := by
  induction l with
  | nil => simp [alookup]
  | cons p rest ih =>
    obtain ⟨k', v'⟩ := p
    by_cases hq : q (k', v') = true
    · have hk : k' ≠ k := by
        intro hkk
        subst hkk
        have := h v' (List.mem_cons_self _ _)
        rw [this] at hq
        exact Bool.false_ne_true hq
      simp only [List.filter_cons, hq, if_pos rfl, alookup, if_neg hk]
      exact ih (fun e he => h e (List.mem_cons_of_mem _ he))
    · simp only [List.filter_cons, Bool.not_eq_true] at hq
      simp only [List.filter_cons, hq]
      exact ih (fun e he => h e (List.mem_cons_of_mem _ he))

/-!
## C8 — cache set/get/prune round trip
-/

/-- C8: for every key `k` and value `v`, after `set(k, v, ttl)` with a
non-zero TTL, a `get(k)` at or before the expiry instant returns `v`; a
`get(k)` after the expiry instant returns absent; and a `prune()` after
the expiry instant physically removes the stored entry for `k`. The store
has one file per key (`_key_to_path` digest), hence the distinct-keys
hypothesis. -/
theorem cache_set_get_prune (c : CacheState) (k : String) (v : JVal)
    (ttl nowMs : Nat) (hnodup : (c.store.map Prod.fst).Nodup) (httl : ttl ≠ 0) :
    (∀ t1 : Nat, t1 ≤ nowMs + 1000 * ttl →
      ((Cache.get (Cache.set c k v (some ttl) nowMs) k t1).2).map CacheEntry.value
        = some v) ∧
    (∀ t2 : Nat, nowMs + 1000 * ttl < t2 →
      (Cache.get (Cache.set c k v (some ttl) nowMs) k t2).2 = none) ∧
    (∀ t2 : Nat, nowMs + 1000 * ttl < t2 →
      alookup k ((Cache.prune (Cache.set c k v (some ttl) nowMs) t2).1.store)
        = none) := by
  have hstore : (Cache.set c k v (some ttl) nowMs).store
      = aset k ⟨k, v, nowMs, some (nowMs + 1000 * ttl)⟩ c.store := by
    simp [Cache.set, httl]
  refine ⟨?_, ?_, ?_⟩
  · intro t1 ht1
    have hexp : expiredAt (some (nowMs + 1000 * ttl)) t1 = false := by
      simp only [expiredAt, Bool.and_eq_false_iff]
      right
      simpa using Nat.not_lt.mpr ht1
    simp [Cache.get, hstore, alookup_aset_self, hexp]
  · intro t2 ht2
    have hexp : expiredAt (some (nowMs + 1000 * ttl)) t2 = true := by
      simp only [expiredAt, Bool.and_eq_true, decide_eq_true_eq]
      omega
    simp [Cache.get, hstore, alookup_aset_self, hexp]
  · intro t2 ht2
    have hnodup' : (((Cache.set c k v (some ttl) nowMs).store).map Prod.fst).Nodup := by
      rw [hstore]
      exact keys_nodup_aset _ _ _ hnodup
    simp only [Cache.prune]
    apply alookup_filter_none
    intro e he
    rw [hstore] at he
    have heq := mem_aset_eq hnodup (v := ⟨k, v, nowMs, some (nowMs + 1000 * ttl)⟩) he
    subst heq
    have hexp : expiredAt (some (nowMs + 1000 * ttl)) t2 = true := by
      simp only [expiredAt, Bool.and_eq_true, decide_eq_true_eq]
      omega
    simp [hexp]

/-- Concrete instantiation of `cache_set_get_prune`: an empty cache,
`set("k", "v", ttl = 1s)` at instant 0, read at 500 ms and 2000 ms, prune
at 2000 ms. -/
theorem cache_set_get_prune_witness :
    ((Cache.get (Cache.set ⟨[], none⟩ "k" (JVal.s "v") (some 1) 0) "k" 500).2).map
        CacheEntry.value = some (JVal.s "v") ∧
    (Cache.get (Cache.set ⟨[], none⟩ "k" (JVal.s "v") (some 1) 0) "k" 2000).2 = none ∧
    alookup "k"
      ((Cache.prune (Cache.set ⟨[], none⟩ "k" (JVal.s "v") (some 1) 0) 2000).1.store)
      = none := by
  have h := cache_set_get_prune ⟨[], none⟩ "k" (JVal.s "v") 1 0 (by simp) (by decide)
  exact ⟨h.1 500 (by norm_num), h.2.1 2000 (by norm_num), h.2.2 2000 (by norm_num)⟩

/-!
## C9 — exposed cache delete does not report existence
-/

/-- C9 counterexample: the RPC `cache.delete` reply is identical whether
the key existed (store holding `"k"`) or not (empty store), so the exposed
response does not distinguish the two cases, contrary to the claim. -/
theorem handleCacheDelete_reply_ignores_existence :
    (alookup "k" (CacheState.mk [("k", ⟨"k", JVal.s "v", 0, none⟩)] none).store).isSome
        = true ∧
    (alookup "k" (CacheState.mk [] none).store).isSome = false ∧
    (handleCacheDelete (CacheState.mk [("k", ⟨"k", JVal.s "v", 0, none⟩)] none) "k").2
        = (handleCacheDelete (CacheState.mk [] none) "k").2 := by
  refine ⟨by simp [alookup], by simp [alookup], rfl⟩

/-- C9 amended: the internal `Cache.delete` returns whether the entry
existed, but `_handle_cache_delete` discards that Boolean and replies
`success = True` unconditionally, for existing and absent keys alike. -/
theorem cache_delete_existed_internal_only (c : CacheState) (k : String) :
    (Cache.delete c k).2 = (alookup k c.store).isSome ∧
    (handleCacheDelete c k).2 = true := by
  constructor
  · unfold Cache.delete
    cases alookup k c.store <;> simp
  · rfl

/-!
## C3 — unknown job type fails fast, creating nothing
-/

/-- C3: submitting a job whose type has no registered handler raises the
unknown-job-type `ValueError` and returns with the job table — in fact the
whole server state — unchanged: no record exists for the generated id
(assuming none existed, as ids are fresh). -/
theorem jobs_start_unknown_type (s : SrvState) (jid job_type : String) (t : Nat)
    (h : Scheduler.has_handler s job_type = false) :
    Scheduler.jobs_start s jid job_type t
      = (s, .error ("Unknown job type: " ++ job_type)) := by
  simp [Scheduler.jobs_start, h]

/-- Concrete instantiation of `jobs_start_unknown_type`: a registry knowing
only `"ocr.extract"` rejects a `"nope"` job and keeps its empty table. -/
theorem jobs_start_unknown_type_witness :
    Scheduler.jobs_start ⟨["ocr.extract"], []⟩ "j1" "nope" 0
      = (⟨["ocr.extract"], []⟩, .error ("Unknown job type: " ++ "nope")) :=
  jobs_start_unknown_type ⟨["ocr.extract"], []⟩ "j1" "nope" 0 (by decide)

/-!
## C6 — cancel semantics
-/

/-- C6: cancelling a known job that is still `pending` succeeds and moves
it to `cancelled` (stamping `completed_at`); cancelling a known job in a
terminal state returns a non-success reply and leaves the server state —
hence the job's state, result, error and timestamps — unchanged. -/
theorem jobs_cancel_pending_terminal (s : SrvState) (jid : String) (t : Nat)
    (j : Job) (hj : alookup jid s.jobs = some j) :
    (j.state = .pending →
      Scheduler.jobs_cancel s jid t
        = ({ s with jobs := aset jid ({ j with state := .cancelled, completed_at := some t }) s.jobs },
           .ok { success := true, reason := none })) ∧
    (j.state.isTerminal = true →
      Scheduler.jobs_cancel s jid t
        = (s, .ok { success := false,
                    reason := some ("Job already " ++ j.state.toStr) })) := by
  constructor
  · intro hp
    simp [Scheduler.jobs_cancel, hj, hp, JobState.isTerminal]
  · intro ht
    simp [Scheduler.jobs_cancel, hj, ht]

/-- Concrete instantiation of `jobs_cancel_pending_terminal` on
`sampleSrv`: cancelling the pending job `"p"` succeeds and marks it
cancelled, cancelling the done job `"a"` is refused with the state kept. -/
theorem jobs_cancel_pending_terminal_witness :
    (Scheduler.jobs_cancel sampleSrv "p" 5
      = ({ sampleSrv with jobs := aset "p" ({ samplePending with state := .cancelled, completed_at := some 5 }) sampleSrv.jobs },
         .ok { success := true, reason := none })) ∧
    (Scheduler.jobs_cancel sampleSrv "a" 5
      = (sampleSrv,
         .ok { success := false, reason := some ("Job already " ++ "done") })) := by
  constructor
  · exact (jobs_cancel_pending_terminal sampleSrv "p" 5 samplePending rfl).1 rfl
  · exact (jobs_cancel_pending_terminal sampleSrv "a" 5 sampleDone rfl).2 rfl

/-!
## C7 — result query cases
-/

/-- C7: for a known job, `jobs.result` answers: `done` → marked successful
with the handler's result payload; `failed` → marked unsuccessful carrying
the captured error text; any non-terminal state (`pending` or `running`)
→ a normal, unsuccessful reply explaining the job is not complete (not a
raised error). -/
theorem jobs_result_cases (s : SrvState) (jid : String) (j : Job)
    (hj : alookup jid s.jobs = some j) :
    (j.state = .done →
      Scheduler.jobs_result s jid
        = .ok { success := true, data := j.result, error := none }) ∧
    (j.state = .failed →
      Scheduler.jobs_result s jid
        = .ok { success := false, data := none, error := j.error }) ∧
    (j.state = .pending ∨ j.state = .running →
      Scheduler.jobs_result s jid
        = .ok { success := false, data := none,
                error := some ("Job not complete: " ++ j.state.toStr) }) := by
  refine ⟨?_, ?_, ?_⟩
  · intro hd
    simp [Scheduler.jobs_result, hj, hd]
  · intro hf
    simp [Scheduler.jobs_result, hj, hf]
  · rintro (hp | hr)
    · simp [Scheduler.jobs_result, hj, hp]
    · simp [Scheduler.jobs_result, hj, hr]

/-- Concrete instantiation of `jobs_result_cases` on `sampleSrv`, which
holds a done, a failed and a running job. -/
theorem jobs_result_cases_witness :
    (Scheduler.jobs_result sampleSrv "a"
      = .ok { success := true, data := some (JVal.n 7), error := none }) ∧
    (Scheduler.jobs_result sampleSrv "b"
      = .ok { success := false, data := none, error := some "boom" }) ∧
    (Scheduler.jobs_result sampleSrv "c"
      = .ok { success := false, data := none,
              error := some ("Job not complete: " ++ "running") }) := by
  refine ⟨?_, ?_, ?_⟩
  · exact (jobs_result_cases sampleSrv "a" sampleDone rfl).1 rfl
  · exact (jobs_result_cases sampleSrv "b" sampleFailed rfl).2.1 rfl
  · exact (jobs_result_cases sampleSrv "c" sampleRunning rfl).2.2 (Or.inr rfl)

/-!
## Model manager helper lemmas
-/

namespace ModelManager

theorem unload_model_preserves_other (s : MMState) (id id' : String)
    (h : id' ≠ id) :
    alookup id (unload_model s id').1.models = alookup id s.models ∧
    (unload_model s id').1.max_vram = s.max_vram := by
  unfold unload_model
  cases hm : alookup id' s.models with
  | none => exact ⟨rfl, rfl⟩
  | some m =>
    by_cases hl : m.loaded
    · simp [hl, alookup_aset_ne _ _ h]
    · simp [hl]

theorem unloads_preserve_other (s : MMState) (id : String) (us : List String)
    (h : id ∉ us) :
    alookup id (applyMMOps s (us.map MMOp.unload)).models = alookup id s.models ∧
    (applyMMOps s (us.map MMOp.unload)).max_vram = s.max_vram := by
  induction us generalizing s with
  | nil => exact ⟨rfl, rfl⟩
  | cons u rest ih =>
    have hu : u ≠ id := fun he => h (he ▸ List.mem_cons_self u rest)
    have hrest : id ∉ rest := fun hm => h (List.mem_cons_of_mem u hm)
    have h1 := unload_model_preserves_other s id u hu
    have h2 := ih (unload_model s u).1 hrest
    exact ⟨h2.1.trans h1.1, h2.2.trans h1.2⟩

end ModelManager

/-!
## C4 — a failing concrete load is all-or-nothing
-/

/-- C4: for a known, not-yet-loaded model, when `_load_model_instance`
raises (the `loadOk = false` oracle), `load_model` returns `False`, the
model registry is byte-for-byte unchanged (so the model's loaded flag is
still `False` and its cost contribution still zero), and the VRAM counter
is untouched. -/
theorem load_model_exception_all_or_nothing (s : MMState) (model_id : String)
    (options : Option Dict) (t : Nat) (m : ModelInfo)
    (hm : alookup model_id s.models = some m) (hnl : m.loaded = false) :
    (ModelManager.load_model s model_id options false t).2 = false ∧
    (ModelManager.load_model s model_id options false t).1.models = s.models ∧
    (ModelManager.load_model s model_id options false t).1.current_vram_usage
      = s.current_vram_usage ∧
    ModelManager.contribution m = 0 := by
  refine ⟨?_, ?_, ?_, by simp [ModelManager.contribution, hnl]⟩ <;>
    · unfold ModelManager.load_model
      rw [hm]
      simp only [hnl, Bool.false_eq_true, if_false]
      split_ifs <;> rfl

/-- Concrete instantiation of `load_model_exception_all_or_nothing`: the
fresh manager asked to load `whisper-tiny` while the loader raises. -/
theorem load_model_exception_all_or_nothing_witness :
    (ModelManager.load_model (ModelManager.fresh MAX_GPU_VRAM_BYTES)
        "whisper-tiny" none false 0).2 = false ∧
    (ModelManager.load_model (ModelManager.fresh MAX_GPU_VRAM_BYTES)
        "whisper-tiny" none false 0).1.models
      = (ModelManager.fresh MAX_GPU_VRAM_BYTES).models ∧
    (ModelManager.load_model (ModelManager.fresh MAX_GPU_VRAM_BYTES)
        "whisper-tiny" none false 0).1.current_vram_usage
      = (ModelManager.fresh MAX_GPU_VRAM_BYTES).current_vram_usage ∧
    ModelManager.contribution
      { id := "whisper-tiny", name := "Whisper Tiny", mtype := "whisper",
        size := 75000000 } = 0 :=
  load_model_exception_all_or_nothing (ModelManager.fresh MAX_GPU_VRAM_BYTES)
    "whisper-tiny" none 0
    { id := "whisper-tiny", name := "Whisper Tiny", mtype := "whisper",
      size := 75000000 }
    (by rfl) rfl

/-!
## C5 — budget refusal, and success after freeing
-/

/-- C5: for a known, not-yet-loaded model whose estimated cost pushes the
projected total over the budget, `load_model` returns `False` with the
whole manager state unchanged; and after unloading any set of *other*
models that brings the projected total within the budget, the same
`load_model` call (with a working loader) succeeds and marks the model
loaded. -/
theorem load_model_budget_refusal_and_retry (s : MMState) (model_id : String)
    (options : Option Dict) (loadOk : Bool) (t : Nat) (m : ModelInfo)
    (hm : alookup model_id s.models = some m) (hnl : m.loaded = false) :
    (s.max_vram < s.current_vram_usage + ModelManager.estimateVram model_id →
      ModelManager.load_model s model_id options loadOk t = (s, false)) ∧
    (∀ us : List String, model_id ∉ us →
      ¬ ((ModelManager.applyMMOps s (us.map ModelManager.MMOp.unload)).max_vram
          < (ModelManager.applyMMOps s (us.map ModelManager.MMOp.unload)).current_vram_usage
            + ModelManager.estimateVram model_id) →
      (ModelManager.load_model (ModelManager.applyMMOps s (us.map ModelManager.MMOp.unload))
          model_id options true t).2 = true ∧
      (alookup model_id (ModelManager.load_model
          (ModelManager.applyMMOps s (us.map ModelManager.MMOp.unload))
          model_id options true t).1.models).map ModelInfo.loaded = some true) := by
  constructor
  · intro hover
    unfold ModelManager.load_model
    rw [hm]
    simp [hnl, hover]
  · intro us hnotin hfits
    have hpres := ModelManager.unloads_preserve_other s model_id us hnotin
    have hm' : alookup model_id
        (ModelManager.applyMMOps s (us.map ModelManager.MMOp.unload)).models = some m :=
      hpres.1.trans hm
    unfold ModelManager.load_model
    rw [hm']
    simp only [hnl, Bool.false_eq_true, if_false, if_neg hfits]
    constructor
    · rfl
    · simp [alookup_aset_self]

/-- Concrete instantiation of `load_model_budget_refusal_and_retry`:
with a 600 MB budget and `easyocr-en` (500 MB) resident, loading
`whisper-tiny` (150 MB) is refused without touching the state; after
unloading `easyocr-en` the same call succeeds. -/
theorem load_model_budget_refusal_and_retry_witness :
    (ModelManager.load_model sampleMM "whisper-tiny" none true 1
      = (sampleMM, false)) ∧
    ((ModelManager.load_model sampleMMFreed "whisper-tiny" none true 2).2 = true ∧
     (alookup "whisper-tiny"
        (ModelManager.load_model sampleMMFreed "whisper-tiny" none true 2).1.models).map
          ModelInfo.loaded = some true) := by
  constructor
  · exact (load_model_budget_refusal_and_retry sampleMM "whisper-tiny" none true 1
      whisperTinyInfo (by rfl) rfl).1 (by decide)
  · exact (load_model_budget_refusal_and_retry sampleMM "whisper-tiny" none true 2
      whisperTinyInfo (by rfl) rfl).2 ["easyocr-en"] (by decide) (by decide)

/-!
## C1 — the VRAM counter invariant
-/

namespace ModelManager

theorem loadedSum_cons (p : String × ModelInfo) (rest : List (String × ModelInfo)) :
    loadedSum (p :: rest) = contribution p.2 + loadedSum rest := by
  simp [loadedSum]

theorem loadedSum_aset (k : String) (m m' : ModelInfo)
    (l : List (String × ModelInfo)) (hm : alookup k l = some m) :
    loadedSum (aset k m' l) + contribution m = loadedSum l + contribution m' := by
  induction l with
  | nil => simp [alookup] at hm
  | cons p rest ih =>
    obtain ⟨k', v⟩ := p
    by_cases hk : k' = k
    · subst hk
      simp only [alookup, if_pos rfl, if_true, Option.some.injEq] at hm
      subst hm
      simp only [aset, if_pos rfl, if_true, loadedSum_cons]
      omega
    · simp only [alookup, if_neg hk] at hm
      have := ih hm
      simp only [aset, if_neg hk, loadedSum_cons]
      omega

theorem vramInv_load_success_core (s : MMState) (id : String) (m m' : ModelInfo)
    (c' : List (String × CatalogEntry)) (est : Nat)
    (hm : alookup id s.models = some m) (hl : m.loaded = false)
    (hm'l : m'.loaded = true) (hm'mem : m'.memory_usage = est)
    (hb : s.current_vram_usage + est ≤ s.max_vram) (h : VramInv s) :
    VramInv { s with models := aset id m' s.models, catalog := c',
                     current_vram_usage := s.current_vram_usage + est } := by
  have hsum := loadedSum_aset id m m' s.models hm
  have hcm : contribution m = 0 := by simp [contribution, hl]
  have hcm' : contribution m' = est := by simp [contribution, hm'l, hm'mem]
  obtain ⟨h1, h2⟩ := h
  constructor
  · show s.current_vram_usage + est = loadedSum (aset id m' s.models)
    omega
  · exact hb

theorem vramInv_load (s : MMState) (model_id : String) (options : Option Dict)
    (loadOk : Bool) (t : Nat) (h : VramInv s) :
    VramInv (load_model s model_id options loadOk t).1 := by
  unfold load_model
  cases hm : alookup model_id s.models with
  | none => exact h
  | some m =>
    by_cases hl : m.loaded
    · simpa [hl] using h
    · simp only [hl, Bool.false_eq_true, if_false]
      by_cases hb : s.max_vram < s.current_vram_usage + estimateVram model_id
      · simpa [hb] using h
      · simp only [hb, if_false]
        cases loadOk with
        | false => exact ⟨h.1, h.2⟩
        | true =>
          have hb' : s.current_vram_usage + estimateVram model_id ≤ s.max_vram :=
            Nat.not_lt.mp hb
          exact vramInv_load_success_core s model_id m _ _ _ hm
            (Bool.not_eq_true m.loaded ▸ hl) rfl rfl hb' h

theorem vramInv_unload (s : MMState) (model_id : String) (h : VramInv s) :
    VramInv (unload_model s model_id).1 := by
  unfold unload_model
  cases hm : alookup model_id s.models with
  | none => exact h
  | some m =>
    by_cases hl : m.loaded
    · simp only [hl, Bool.not_true, Bool.false_eq_true, if_false]
      have hsum := loadedSum_aset model_id m
        { m with loaded := false, memory_usage := 0 } s.models hm
      have hcm : contribution m = m.memory_usage := by simp [contribution, hl]
      have hcm' : contribution { m with loaded := false, memory_usage := 0 } = 0 := by
        simp [contribution]
      obtain ⟨h1, h2⟩ := h
      constructor
      · show s.current_vram_usage - m.memory_usage
          = loadedSum (aset model_id { m with loaded := false, memory_usage := 0 } s.models)
        omega
      · show s.current_vram_usage - m.memory_usage ≤ s.max_vram
        omega
    · simpa [hl] using h

theorem vramInv_applyMMOp (s : MMState) (op : MMOp) (h : VramInv s) :
    VramInv (applyMMOp s op) := by
  cases op with
  | load model_id options loadOk t => exact vramInv_load s model_id options loadOk t h
  | unload model_id => exact vramInv_unload s model_id h

theorem applyMMOp_max (s : MMState) (op : MMOp) :
    (applyMMOp s op).max_vram = s.max_vram := by
  cases op with
  | load model_id options loadOk t =>
    show (load_model s model_id options loadOk t).1.max_vram = s.max_vram
    unfold load_model
    cases alookup model_id s.models with
    | none => rfl
    | some m =>
      by_cases hl : m.loaded
      · simp [hl]
      · simp only [hl, Bool.false_eq_true, if_false]
        by_cases hb : s.max_vram < s.current_vram_usage + estimateVram model_id
        · simp [hb]
        · simp only [hb, if_false]
          cases loadOk <;> rfl
  | unload model_id =>
    show (unload_model s model_id).1.max_vram = s.max_vram
    unfold unload_model
    cases alookup model_id s.models with
    | none => rfl
    | some m => by_cases hl : m.loaded <;> simp [hl]

theorem vramInv_applyMMOps (s : MMState) (ops : List MMOp) (h : VramInv s) :
    VramInv (applyMMOps s ops) := by
  induction ops generalizing s with
  | nil => exact h
  | cons op rest ih => exact ih (applyMMOp s op) (vramInv_applyMMOp s op h)

theorem applyMMOps_max (s : MMState) (ops : List MMOp) :
    (applyMMOps s ops).max_vram = s.max_vram := by
  induction ops generalizing s with
  | nil => rfl
  | cons op rest ih => exact (ih (applyMMOp s op)).trans (applyMMOp_max s op)

theorem vramInv_fresh (maxVram : Nat) : VramInv (fresh maxVram) :=
  ⟨rfl, Nat.zero_le maxVram⟩

end ModelManager

/-- C1: starting from a fresh manager with any configured budget, after
every sequence of `load_model`/`unload_model` calls (quantifying over all
sequences covers every intermediate observable point) the counter
`current_vram_usage` equals the sum of the `memory_usage` costs of the
currently loaded models and never exceeds the configured `max_vram`. -/
theorem vram_budget_invariant (maxVram : Nat) (ops : List ModelManager.MMOp) :
    (ModelManager.applyMMOps (ModelManager.fresh maxVram) ops).current_vram_usage
      = ModelManager.loadedSum
          (ModelManager.applyMMOps (ModelManager.fresh maxVram) ops).models ∧
    (ModelManager.applyMMOps (ModelManager.fresh maxVram) ops).current_vram_usage
      ≤ maxVram := by
  have hinv := ModelManager.vramInv_applyMMOps (ModelManager.fresh maxVram) ops
    (ModelManager.vramInv_fresh maxVram)
  have hmax : (ModelManager.applyMMOps (ModelManager.fresh maxVram) ops).max_vram
      = maxVram := ModelManager.applyMMOps_max (ModelManager.fresh maxVram) ops
  exact ⟨hinv.1, le_of_le_of_eq hinv.2 hmax⟩

/-!
## C10 — caller options leak into the shared default catalog
-/

/-- C10: for a model whose `DEFAULT_MODELS` entry carries a `config` dict,
a successful `load_model(id, opts)` writes `opts` through the aliased
`model_config.update(options)` into the shared catalog entry; after
`unload_model(id)`, a later `load_model(id, None)` therefore uses the
previously supplied options merged into the defaults (`dictUpdate c opts`)
as its effective load options, not the original defaults alone. -/
theorem load_options_mutate_shared_catalog
    (s : MMState) (model_id : String) (opts : Dict) (e : CatalogEntry) (c : Dict)
    (m : ModelInfo) (t1 t3 : Nat)
    (he : alookup model_id s.catalog = some e) (hc : e.config = some c)
    (hm : alookup model_id s.models = some m) (hnl : m.loaded = false)
    (hopts : opts ≠ [])
    (hb : ¬ (s.max_vram < s.current_vram_usage + ModelManager.estimateVram model_id)) :
    (alookup model_id
        (ModelManager.load_model
          (ModelManager.unload_model
            (ModelManager.load_model s model_id (some opts) true t1).1 model_id).1
          model_id none true t3).1.models).map ModelInfo.load_options
      = some (dictUpdate c opts) ∧
    (alookup model_id
        (ModelManager.unload_model
          (ModelManager.load_model s model_id (some opts) true t1).1 model_id).1.catalog).map
        CatalogEntry.config = some (some (dictUpdate c opts)) := by
  have hopts' : opts.isEmpty = false := by
    cases opts with
    | nil => exact absurd rfl hopts
    | cons a l => rfl
  have h1 : ModelManager.load_model s model_id (some opts) true t1
      = ({ s with
           models := aset model_id { m with loaded := true, last_used := t1, load_options := dictUpdate c opts, memory_usage := ModelManager.estimateVram model_id } s.models,
           catalog := aset model_id { e with config := some (dictUpdate c opts) } s.catalog,
           current_vram_usage := s.current_vram_usage + ModelManager.estimateVram model_id },
         true) := by
    unfold ModelManager.load_model
    rw [hm, he]
    simp [hnl, hb, hc, hopts']
  rw [h1]
  have h2 : ModelManager.unload_model
      ({ s with
         models := aset model_id { m with loaded := true, last_used := t1, load_options := dictUpdate c opts, memory_usage := ModelManager.estimateVram model_id } s.models,
         catalog := aset model_id { e with config := some (dictUpdate c opts) } s.catalog,
         current_vram_usage := s.current_vram_usage + ModelManager.estimateVram model_id } : MMState)
      model_id
      = ({ s with
           models := aset model_id { m with loaded := false, last_used := t1, load_options := dictUpdate c opts, memory_usage := 0 } (aset model_id { m with loaded := true, last_used := t1, load_options := dictUpdate c opts, memory_usage := ModelManager.estimateVram model_id } s.models),
           catalog := aset model_id { e with config := some (dictUpdate c opts) } s.catalog,
           current_vram_usage := s.current_vram_usage + ModelManager.estimateVram model_id - ModelManager.estimateVram model_id },
         true) := by
    unfold ModelManager.unload_model
    rw [alookup_aset_self]
    rfl
  rw [h2]
  constructor
  · have hcur : s.current_vram_usage + ModelManager.estimateVram model_id
        - ModelManager.estimateVram model_id = s.current_vram_usage := by
      omega
    unfold ModelManager.load_model
    rw [alookup_aset_self, alookup_aset_self]
    simp only [hcur]
    simp [hb, alookup_aset_self]
  · rw [alookup_aset_self]
    rfl

/-- Concrete instantiation of `load_options_mutate_shared_catalog`: load
`whisper-tiny` with `model_size = "medium"`, unload it, reload it with no
options: the effective load options are the mutated catalog config, which
maps `model_size` to `"medium"`, not the original `"tiny"`. -/
theorem load_options_mutate_shared_catalog_witness :
    (alookup "whisper-tiny"
        (ModelManager.load_model
          (ModelManager.unload_model
            (ModelManager.load_model (ModelManager.fresh MAX_GPU_VRAM_BYTES)
              "whisper-tiny" (some [("model_size", JVal.s "medium")]) true 1).1
            "whisper-tiny").1
          "whisper-tiny" none true 3).1.models).map ModelInfo.load_options
      = some (dictUpdate [("model_size", JVal.s "tiny")] [("model_size", JVal.s "medium")]) ∧
    (alookup "whisper-tiny"
        (ModelManager.unload_model
          (ModelManager.load_model (ModelManager.fresh MAX_GPU_VRAM_BYTES)
            "whisper-tiny" (some [("model_size", JVal.s "medium")]) true 1).1
          "whisper-tiny").1.catalog).map CatalogEntry.config
      = some (some (dictUpdate [("model_size", JVal.s "tiny")] [("model_size", JVal.s "medium")])) :=
  load_options_mutate_shared_catalog (ModelManager.fresh MAX_GPU_VRAM_BYTES)
    "whisper-tiny" [("model_size", JVal.s "medium")]
    { name := "Whisper Tiny", mtype := "whisper", size := 75000000,
      loader := "whisper", config := some [("model_size", JVal.s "tiny")] }
    [("model_size", JVal.s "tiny")] whisperTinyInfo 1 3
    (by rfl) rfl (by rfl) rfl (by decide) (by decide)

/-!
## C2 — job lifecycle
-/

namespace Scheduler

theorem okStep_refl (a : Option JobState) : okStep a a = true := by
  simp [okStep]

theorem okStep_rank : ∀ a b : Option JobState,
    okStep a b = true → rank a ≤ rank b := by
  decide

theorem okStep_terminal : ∀ a b : Option JobState,
    okStep a b = true → isTerminalO a = true → b = a := by
  decide

theorem applyOp_okStep (s : SrvState) (op : SrvOp) (jid : String)
    (hwf : wfOp s op = true) :
    okStep (stateOf s jid) (stateOf (applyOp s op) jid) = true := by
  cases op with
  | start jid' jt t =>
    simp only [wfOp, Option.isNone_iff_eq_none] at hwf
    by_cases hh : has_handler s jt
    · by_cases hj : jid' = jid
      · subst hj
        have ha : stateOf s jid' = none := by simp [stateOf, hwf]
        have hb : stateOf (applyOp s (SrvOp.start jid' jt t)) jid'
            = some JobState.pending := by
          simp [applyOp, jobs_start, hh, stateOf, alookup_aset_self]
        simp [ha, hb, okStep]
      · have hb : stateOf (applyOp s (SrvOp.start jid' jt t)) jid = stateOf s jid := by
          simp [applyOp, jobs_start, hh, stateOf, alookup_aset_ne _ _ hj]
        simp [hb, okStep_refl]
    · have hb : stateOf (applyOp s (SrvOp.start jid' jt t)) jid = stateOf s jid := by
        simp [applyOp, jobs_start, hh, stateOf]
      simp [hb, okStep_refl]
  | runBegin jid' t =>
    simp only [wfOp, decide_eq_true_eq] at hwf
    obtain ⟨j, hjl, hjs⟩ : ∃ j, alookup jid' s.jobs = some j ∧ j.state = .pending := by
      unfold stateOf at hwf
      cases hl : alookup jid' s.jobs with
      | none => rw [hl] at hwf; simp at hwf
      | some j =>
        rw [hl] at hwf
        simp at hwf
        exact ⟨j, rfl, hwf⟩
    by_cases hj : jid' = jid
    · subst hj
      have ha : stateOf s jid' = some JobState.pending := by simp [stateOf, hjl, hjs]
      have hb : stateOf (applyOp s (SrvOp.runBegin jid' t)) jid'
          = some JobState.running := by
        simp [applyOp, run_begin, hjl, stateOf, alookup_aset_self]
      simp [ha, hb, okStep]
    · have hb : stateOf (applyOp s (SrvOp.runBegin jid' t)) jid = stateOf s jid := by
        simp [applyOp, run_begin, hjl, stateOf, alookup_aset_ne _ _ hj]
      simp [hb, okStep_refl]
  | progress jid' pct msg =>
    cases hl : alookup jid' s.jobs with
    | none =>
      have hb : stateOf (applyOp s (SrvOp.progress jid' pct msg)) jid = stateOf s jid := by
        simp [applyOp, on_progress, hl, stateOf]
      simp [hb, okStep_refl]
    | some j =>
      by_cases hj : jid' = jid
      · subst hj
        have ha : stateOf s jid' = some j.state := by simp [stateOf, hl]
        have hb : stateOf (applyOp s (SrvOp.progress jid' pct msg)) jid'
            = some j.state := by
          simp [applyOp, on_progress, hl, stateOf, alookup_aset_self]
        simp [ha, hb, okStep]
      · have hb : stateOf (applyOp s (SrvOp.progress jid' pct msg)) jid = stateOf s jid := by
          simp [applyOp, on_progress, hl, stateOf, alookup_aset_ne _ _ hj]
        simp [hb, okStep_refl]
  | runEnd jid' o t =>
    simp only [wfOp, decide_eq_true_eq] at hwf
    obtain ⟨j, hjl, hjs⟩ : ∃ j, alookup jid' s.jobs = some j ∧ j.state = .running := by
      unfold stateOf at hwf
      cases hl : alookup jid' s.jobs with
      | none => rw [hl] at hwf; simp at hwf
      | some j =>
        rw [hl] at hwf
        simp at hwf
        exact ⟨j, rfl, hwf⟩
    have ha : stateOf s jid' = some JobState.running := by simp [stateOf, hjl, hjs]
    cases o with
    | ok v =>
      by_cases hj : jid' = jid
      · subst hj
        have hb : stateOf (applyOp s (SrvOp.runEnd jid' (HOutcome.ok v) t)) jid'
            = some JobState.done := by
          simp [applyOp, run_end, hjl, stateOf, alookup_aset_self]
        simp [ha, hb, okStep]
      · have hb : stateOf (applyOp s (SrvOp.runEnd jid' (HOutcome.ok v) t)) jid
            = stateOf s jid := by
          simp [applyOp, run_end, hjl, stateOf, alookup_aset_ne _ _ hj]
        simp [hb, okStep_refl]
    | err msg =>
      by_cases hj : jid' = jid
      · subst hj
        have hb : stateOf (applyOp s (SrvOp.runEnd jid' (HOutcome.err msg) t)) jid'
            = some JobState.failed := by
          simp [applyOp, run_end, hjl, stateOf, alookup_aset_self]
        simp [ha, hb, okStep]
      · have hb : stateOf (applyOp s (SrvOp.runEnd jid' (HOutcome.err msg) t)) jid
            = stateOf s jid := by
          simp [applyOp, run_end, hjl, stateOf, alookup_aset_ne _ _ hj]
        simp [hb, okStep_refl]
  | cancel jid' t =>
    cases hl : alookup jid' s.jobs with
    | none =>
      have hb : stateOf (applyOp s (SrvOp.cancel jid' t)) jid = stateOf s jid := by
        simp [applyOp, jobs_cancel, hl, stateOf]
      simp [hb, okStep_refl]
    | some j =>
      by_cases ht : j.state.isTerminal = true
      · have hb : stateOf (applyOp s (SrvOp.cancel jid' t)) jid = stateOf s jid := by
          simp [applyOp, jobs_cancel, hl, ht, stateOf]
        simp [hb, okStep_refl]
      · by_cases hp : j.state = .pending
        · by_cases hj : jid' = jid
          · subst hj
            have ha : stateOf s jid' = some JobState.pending := by simp [stateOf, hl, hp]
            have hb : stateOf (applyOp s (SrvOp.cancel jid' t)) jid'
                = some JobState.cancelled := by
              simp [applyOp, jobs_cancel, hl, ht, hp, stateOf, alookup_aset_self,
                JobState.isTerminal]
            simp [ha, hb, okStep]
          · have hb : stateOf (applyOp s (SrvOp.cancel jid' t)) jid = stateOf s jid := by
              simp [applyOp, jobs_cancel, hl, ht, hp, stateOf,
                alookup_aset_ne _ _ hj, JobState.isTerminal]
            simp [hb, okStep_refl]
        · have hb : stateOf (applyOp s (SrvOp.cancel jid' t)) jid = stateOf s jid := by
            simp [applyOp, jobs_cancel, hl, ht, hp, stateOf]
          simp [hb, okStep_refl]
  | statusQ jid' => exact okStep_refl _
  | resultQ jid' => exact okStep_refl _

theorem wfTrace_cons {s : SrvState} {op : SrvOp} {rest : List SrvOp}
    (h : wfTrace s (op :: rest) = true) :
    wfOp s op = true ∧ wfTrace (applyOp s op) rest = true := by
  simpa [wfTrace, Bool.and_eq_true] using h

theorem terminal_stable_step (s : SrvState) (op : SrvOp) (jid : String)
    (st : JobState) (hwf : wfOp s op = true) (hst : stateOf s jid = some st)
    (hterm : st.isTerminal = true) :
    stateOf (applyOp s op) jid = some st := by
  have h := applyOp_okStep s op jid hwf
  have hstable := okStep_terminal _ _ h (by simp [isTerminalO, hst, hterm])
  rw [hstable, hst]

theorem terminal_stable_trace (s : SrvState) (jid : String) (ops : List SrvOp)
    (st : JobState) (hwf : wfTrace s ops = true) (hst : stateOf s jid = some st)
    (hterm : st.isTerminal = true) :
    stateOf (applyOps s ops) jid = some st := by
  induction ops generalizing s with
  | nil => exact hst
  | cons op rest ih =>
    obtain ⟨h1, h2⟩ := wfTrace_cons hwf
    exact ih (applyOp s op) h2 (terminal_stable_step s op jid st h1 hst hterm)

theorem enterRunningCount_eq_zero (s : SrvState) (jid : String) (ops : List SrvOp)
    (hwf : wfTrace s ops = true) (h2 : 2 ≤ rank (stateOf s jid)) :
    enterRunningCount s jid ops = 0 := by
  induction ops generalizing s with
  | nil => rfl
  | cons op rest ih =>
    obtain ⟨h1, hrest⟩ := wfTrace_cons hwf
    have hmono := okStep_rank _ _ (applyOp_okStep s op jid h1)
    have hnp : ¬ (stateOf s jid = some JobState.pending ∧
        stateOf (applyOp s op) jid = some JobState.running) := by
      rintro ⟨hp, _⟩
      rw [hp] at h2
      simp [rank] at h2
    simp only [enterRunningCount, if_neg hnp, Nat.zero_add]
    exact ih (applyOp s op) hrest (le_trans h2 hmono)

theorem enterRunningCount_le_one (s : SrvState) (jid : String) (ops : List SrvOp)
    (hwf : wfTrace s ops = true) : enterRunningCount s jid ops ≤ 1 := by
  induction ops generalizing s with
  | nil => simp [enterRunningCount]
  | cons op rest ih =>
    obtain ⟨h1, hrest⟩ := wfTrace_cons hwf
    by_cases hc : stateOf s jid = some JobState.pending ∧
        stateOf (applyOp s op) jid = some JobState.running
    · have hz : enterRunningCount (applyOp s op) jid rest = 0 := by
        apply enterRunningCount_eq_zero _ _ _ hrest
        rw [hc.2]
        decide
      simp [enterRunningCount, if_pos hc, hz]
    · simp only [enterRunningCount, if_neg hc, Nat.zero_add]
      exact ih (applyOp s op) hrest

theorem enterTerminalCount_eq_zero (s : SrvState) (jid : String) (ops : List SrvOp)
    (hwf : wfTrace s ops = true) (ht : isTerminalO (stateOf s jid) = true) :
    enterTerminalCount s jid ops = 0 := by
  induction ops generalizing s with
  | nil => rfl
  | cons op rest ih =>
    obtain ⟨h1, hrest⟩ := wfTrace_cons hwf
    have hstable := okStep_terminal _ _ (applyOp_okStep s op jid h1) ht
    have hnp : ¬ (isTerminalO (stateOf s jid) = false ∧
        isTerminalO (stateOf (applyOp s op) jid) = true) := by
      rintro ⟨hf, _⟩
      rw [ht] at hf
      exact Bool.true_eq_false.mp hf
    simp only [enterTerminalCount, if_neg hnp, Nat.zero_add]
    exact ih (applyOp s op) hrest (by rw [hstable]; exact ht)

theorem enterTerminalCount_le_one (s : SrvState) (jid : String) (ops : List SrvOp)
    (hwf : wfTrace s ops = true) : enterTerminalCount s jid ops ≤ 1 := by
  induction ops generalizing s with
  | nil => simp [enterTerminalCount]
  | cons op rest ih =>
    obtain ⟨h1, hrest⟩ := wfTrace_cons hwf
    by_cases hc : isTerminalO (stateOf s jid) = false ∧
        isTerminalO (stateOf (applyOp s op) jid) = true
    · have hz : enterTerminalCount (applyOp s op) jid rest = 0 :=
        enterTerminalCount_eq_zero _ _ _ hrest hc.2
      simp [enterTerminalCount, if_pos hc, hz]
    · simp only [enterTerminalCount, if_neg hc, Nat.zero_add]
      exact ih (applyOp s op) hrest

theorem statusState_eq_stateOf (s : SrvState) (jid : String) :
    statusState s jid = stateOf s jid := by
  unfold statusState jobs_status stateOf
  cases alookup jid s.jobs <;> rfl

end Scheduler

/-- C2 counterexample to the claim as stated: in the well-formed execution
"start job `j`, then cancel it while still pending", the job reaches the
terminal state `cancelled` without ever transitioning through
`pending→running` — zero such transitions, not exactly one. -/
theorem job_cancelled_while_pending_never_runs :
    Scheduler.wfTrace ⟨["t"], []⟩
      [Scheduler.SrvOp.start "j" "t" 0, Scheduler.SrvOp.cancel "j" 1] = true ∧
    Scheduler.stateOf
      (Scheduler.applyOps ⟨["t"], []⟩
        [Scheduler.SrvOp.start "j" "t" 0, Scheduler.SrvOp.cancel "j" 1]) "j"
      = some JobState.cancelled ∧
    Scheduler.enterRunningCount ⟨["t"], []⟩ "j"
      [Scheduler.SrvOp.start "j" "t" 0, Scheduler.SrvOp.cancel "j" 1] = 0 := by
  decide

/-- C2 amended: along every well-formed operation sequence, a job's state
transitions **at most** once through `pending→running` (a job cancelled
while pending never runs) and at most once into a terminal state; and once
a job is terminal no subsequent operation changes its state — every later
status query reports the same terminal state. -/
theorem job_lifecycle_safety (s : SrvState) (jid : String) (ops : List Scheduler.SrvOp)
    (hwf : Scheduler.wfTrace s ops = true) :
    Scheduler.enterRunningCount s jid ops ≤ 1 ∧
    Scheduler.enterTerminalCount s jid ops ≤ 1 ∧
    (∀ st : JobState, Scheduler.stateOf s jid = some st → st.isTerminal = true →
      Scheduler.stateOf (Scheduler.applyOps s ops) jid = some st ∧
      Scheduler.statusState (Scheduler.applyOps s ops) jid = some st) := by
  refine ⟨Scheduler.enterRunningCount_le_one s jid ops hwf,
          Scheduler.enterTerminalCount_le_one s jid ops hwf, ?_⟩
  intro st hst hterm
  have h := Scheduler.terminal_stable_trace s jid ops st hwf hst hterm
  exact ⟨h, (Scheduler.statusState_eq_stateOf _ jid).trans h⟩

/-- Concrete instantiation of `job_lifecycle_safety`: a full
start/run/finish/cancel-attempt trace of one job, and a trace of further
operations over `sampleSrv` after job `"a"` is already done. -/
theorem job_lifecycle_safety_witness :
    Scheduler.enterRunningCount ⟨["t"], []⟩ "j"
      [Scheduler.SrvOp.start "j" "t" 0, Scheduler.SrvOp.runBegin "j" 1,
       Scheduler.SrvOp.runEnd "j" (HOutcome.ok (JVal.n 1)) 2,
       Scheduler.SrvOp.cancel "j" 3] ≤ 1 ∧
    Scheduler.enterTerminalCount ⟨["t"], []⟩ "j"
      [Scheduler.SrvOp.start "j" "t" 0, Scheduler.SrvOp.runBegin "j" 1,
       Scheduler.SrvOp.runEnd "j" (HOutcome.ok (JVal.n 1)) 2,
       Scheduler.SrvOp.cancel "j" 3] ≤ 1 ∧
    Scheduler.stateOf
      (Scheduler.applyOps sampleSrv
        [Scheduler.SrvOp.cancel "a" 9, Scheduler.SrvOp.progress "a" 50 "x",
         Scheduler.SrvOp.start "z" "t" 9]) "a" = some JobState.done ∧
    Scheduler.statusState
      (Scheduler.applyOps sampleSrv
        [Scheduler.SrvOp.cancel "a" 9, Scheduler.SrvOp.progress "a" 50 "x",
         Scheduler.SrvOp.start "z" "t" 9]) "a" = some JobState.done := by
  have h1 := job_lifecycle_safety ⟨["t"], []⟩ "j"
    [Scheduler.SrvOp.start "j" "t" 0, Scheduler.SrvOp.runBegin "j" 1,
     Scheduler.SrvOp.runEnd "j" (HOutcome.ok (JVal.n 1)) 2,
     Scheduler.SrvOp.cancel "j" 3] (by decide)
  have h2 := (job_lifecycle_safety sampleSrv "a"
    [Scheduler.SrvOp.cancel "a" 9, Scheduler.SrvOp.progress "a" 50 "x",
     Scheduler.SrvOp.start "z" "t" 9] (by decide)).2.2 JobState.done (by rfl) rfl
  exact ⟨h1.1, h1.2.1, h2.1, h2.2⟩

end ClipDr
